import Mathlib

/-!
Verification development for the ProxyCall streaming voice-agent pipeline.

Each component used by the properties under study is shallowly embedded
from the Python source: pure functions become Lean functions, stateful
code becomes explicit state passing, fallible external calls become
`Except`-valued oracles, and machine floats are modelled by exact
rationals.
-/

namespace ProxyCall

/-! ## Confidence gate (src/brain/gate.py) -/

/-- Result of the external intent classifier (brain/intent.py, `IntentResult`). -/
structure IntentResult where
  needs_response : Bool
  confidence : ℚ
  question_summary : String
  urgency : String
deriving DecidableEq, Repr

/-- Gate actions (brain/gate.py, `Action`). -/
inductive Action where
  | RESPOND
  | CONFIRM
  | SILENT
deriving DecidableEq, Repr

/-- Gate output (brain/gate.py, `GateDecision`). -/
structure GateDecision where
  action : Action
  reason : String
  intent : IntentResult
deriving DecidableEq, Repr

/-- The gate's sole configuration (brain/gate.py, `ConfidenceGate.__init__`). -/
structure ConfidenceGate where
  auto_threshold : ℚ
deriving DecidableEq, Repr

/-- Round a rational to the nearest integer, ties to even — the rounding used
by Python's percent formatting. -/
def roundHalfEven (q : ℚ) : ℤ :=
  let f : ℤ := ⌊q⌋
  let r : ℚ := q - f
  if r < 1/2 then f
  else if 1/2 < r then f + 1
  else if Even f then f else f + 1

/-- Python percent formatting with zero decimals: the value times 100,
rounded to the nearest whole percent, followed by a percent sign. -/
def formatPct (q : ℚ) : String :=
  toString (roundHalfEven (q * 100)) ++ "%"

/-- Decision function `ConfidenceGate.decide` (brain/gate.py lines 31-62),
translated branch by branch. -/
def ConfidenceGate.decide (g : ConfidenceGate) (intent : IntentResult) : GateDecision :=
  if ¬ intent.needs_response then
    { action := Action.SILENT, reason := "No response needed", intent := intent }
  else if g.auto_threshold ≤ intent.confidence then
    { action := Action.RESPOND, reason := "Confident (" ++ formatPct intent.confidence ++ ")",
      intent := intent }
  else
    { action := Action.SILENT, reason := "Low confidence (" ++ formatPct intent.confidence ++ ")",
      intent := intent }

/-! ## Resampler (src/audio/capture.py, `_resample`) -/

/-- Entry of a rational list at an integer index, defaulting to 0 (indices
produced by `_resample` are always in range). -/
def getQ (l : List ℚ) (i : ℤ) : ℚ :=
  l.getD i.toNat 0

/-- Function `_resample` (audio/capture.py lines 25-36) over
exact rationals.  `int(...)` on a non-negative value truncates, i.e. floors;
`np.clip` is a min/max clamp; `astype(np.int64)` on the non-negative clipped
indices floors. -/
def pyResample (audio_in : List ℚ) (from_rate to_rate : ℕ) : List ℚ :=
  if from_rate = to_rate then audio_in
  else
    let ratio : ℚ := (to_rate : ℚ) / (from_rate : ℚ)
    let n_samples : ℕ := (⌊(audio_in.length : ℚ) * ratio⌋).toNat
    (List.range n_samples).map (fun (i : ℕ) =>
      let idx0 : ℚ := (i : ℚ) / ratio
      let idx : ℚ := min (max idx0 0) ((audio_in.length : ℚ) - 1)
      let idx_floor : ℤ := ⌊idx⌋
      let idx_ceil : ℤ := min (idx_floor + 1) ((audio_in.length : ℤ) - 1)
      let frac : ℚ := idx - idx_floor
      getQ audio_in idx_floor * (1 - frac) + getQ audio_in idx_ceil * frac)

/-! ## Ring buffer query (src/audio/capture.py, `AudioCapture.get_recent_audio`) -/

/-- The part of `AudioCapture`'s state that `get_recent_audio` reads: the ring
buffer of resampled chunks plus the target rate and block size fixed at
construction. -/
structure CaptureState where
  ring_buffer : List (List ℚ)
  sample_rate : ℕ
  block_size : ℕ
deriving DecidableEq, Repr

/-- Method `AudioCapture.get_recent_audio` (audio/capture.py lines 178-185).
`int(...)` of the non-negative quotient floors; Python's `lst[-k:]` is the
trailing `k` elements for `k ≥ 1` but the whole list for `k = 0`; an empty
block list yields an empty array, otherwise the blocks are concatenated. -/
def get_recent_audio (s : CaptureState) (seconds : ℚ) : List ℚ :=
  let blocks_needed : ℕ := (⌊seconds * (s.sample_rate : ℚ) / (s.block_size : ℚ)⌋).toNat
  let blocks : List (List ℚ) :=
    if blocks_needed = 0 then s.ring_buffer
    else s.ring_buffer.drop (s.ring_buffer.length - blocks_needed)
  blocks.flatten

/-! ## Transcript buffer (src/transcript/buffer.py, `TranscriptBuffer.add_text`) -/

/-- Whitespace as stripped by Python's `str.strip()` / `lstrip()` (the ASCII
whitespace characters). -/
def isPySpace (c : Char) : Bool :=
  c = ' ' ∨ c = '\t' ∨ c = '\n' ∨ c = '\x0d' ∨ c = '\x0b' ∨ c = '\x0c'

/-- Python `str.strip()` on a character list. -/
def pyStrip (l : List Char) : List Char :=
  ((l.dropWhile isPySpace).reverse.dropWhile isPySpace).reverse

/-- Sentence-terminal punctuation tested by `add_text` (`ch in ".!?"`). -/
def isTerm (c : Char) : Bool :=
  c = '.' ∨ c = '!' ∨ c = '?'

/-- The scan of `add_text`'s inner `for` loop: index of the first character
that is sentence-terminal punctuation followed by a space character or the end
of the buffer (buffer.py line 40). -/
def findBoundary : List Char → Option ℕ
  | [] => none
  | [c] => if isTerm c then some 0 else none
  | c :: d :: rest =>
    if isTerm c ∧ d = ' ' then some 0
    else
      match findBoundary (d :: rest) with
      | some i => some (i + 1)
      | none => none

/-- The scanning loop of `add_text` (buffer.py lines 37-52): repeatedly cut
at the first boundary, emit the stripped sentence (when non-empty), and
left-strip the remainder.  `fuel` bounds the number of cuts; each cut removes
at least one character, so `fuel = length` suffices. -/
def splitLoop : ℕ → List Char → List (List Char) × List Char
  | 0, l => ([], l)
  | fuel + 1, l =>
    match findBoundary l with
    | none => ([], l)
    | some i =>
      let sentence := pyStrip (l.take (i + 1))
      let rest := (l.drop (i + 1)).dropWhile isPySpace
      let (segs, pending) := splitLoop fuel rest
      ((if sentence ≠ [] then [sentence] else []) ++ segs, pending)

/-- Method `TranscriptBuffer.add_text` given the currently pending text: returns
the texts of the segments finalized by this call and the new pending text. -/
def add_text (pending text : List Char) : List (List Char) × List Char :=
  let cur := pending ++ text
  splitLoop cur.length cur

/-- String-level wrapper of `add_text`, for stating the spec's concrete
transcript example. -/
def addTextStr (pending text : String) : List String × String :=
  let (segs, rest) := add_text pending.toList text.toList
  (segs.map (fun l => String.mk l), String.mk rest)

/-- A sentence boundary as the claim words it: sentence-terminal punctuation
at index `i` followed by *whitespace* or the end of the buffer. -/
def claimBoundaryWs (l : List Char) (i : ℕ) : Bool :=
  isTerm (l.getD i ' ') ∧ (i + 1 = l.length ∨ isPySpace (l.getD (i + 1) 'x'))

/-- Leftmost claim-boundary (whitespace variant). -/
def claimFindWs (l : List Char) : Option ℕ :=
  (List.range l.length).find? (fun i => claimBoundaryWs l i)

/-- The claim's emission loop (whitespace variant): cut at each leftmost
boundary, emit the trimmed segment, retain the left-stripped remainder. -/
def claimLoopWs : ℕ → List Char → List (List Char) × List Char
  | 0, l => ([], l)
  | fuel + 1, l =>
    match claimFindWs l with
    | none => ([], l)
    | some i =>
      let (segs, pending) := claimLoopWs fuel ((l.drop (i + 1)).dropWhile isPySpace)
      (pyStrip (l.take (i + 1)) :: segs, pending)

/-- The claim's description of `add_text` (whitespace variant). -/
def claimAddTextWs (pending text : List Char) : List (List Char) × List Char :=
  let cur := pending ++ text
  claimLoopWs cur.length cur

/-- A sentence boundary as the code implements it: sentence-terminal
punctuation at index `i` followed by a *space character* or the end of the
buffer. -/
def specBoundary (l : List Char) (i : ℕ) : Bool :=
  isTerm (l.getD i ' ') ∧ (i + 1 = l.length ∨ l.getD (i + 1) 'x' = ' ')

/-- Leftmost boundary (space variant). -/
def specFind (l : List Char) : Option ℕ :=
  (List.range l.length).find? (fun i => specBoundary l i)

/-- Emission loop described over leftmost boundaries (space variant). -/
def specLoop : ℕ → List Char → List (List Char) × List Char
  | 0, l => ([], l)
  | fuel + 1, l =>
    match specFind l with
    | none => ([], l)
    | some i =>
      let (segs, pending) := specLoop fuel ((l.drop (i + 1)).dropWhile isPySpace)
      (pyStrip (l.take (i + 1)) :: segs, pending)

/-- The amended description of `add_text`: a trimmed segment exactly at each
occurrence of terminal punctuation followed by a space or end-of-buffer. -/
def specAddText (pending text : List Char) : List (List Char) × List Char :=
  let cur := pending ++ text
  specLoop cur.length cur

/-! ## Voice-activity boundary detector (src/asr/vad.py) -/

/-- VAD configuration (asr/vad.py, `VoiceActivityDetector.__init__`). -/
structure VadConfig where
  silence_timeout : ℚ
  speech_threshold : ℚ
deriving DecidableEq, Repr

/-- The detector's mutable state (asr/vad.py lines 32-34). -/
structure VadState where
  is_speaking : Bool
  silence_start : Option ℚ
  speech_start : Option ℚ
deriving DecidableEq, Repr

/-- State after construction / `reset()`. -/
def VadState.init : VadState :=
  { is_speaking := false, silence_start := none, speech_start := none }

/-- Events appended to the returned list by `process` (asr/vad.py
lines 101 and 116-120). -/
inductive VadEvent where
  | speechStart (time : ℚ)
  | speechEnd (time duration : ℚ)
deriving DecidableEq, Repr

/-- One 512-sample frame of `process` (asr/vad.py lines 93-127): the model
probability `prob` and the frame's `time.monotonic()` value `now` drive the
transition. -/
def vadStep (cfg : VadConfig) (st : VadState) (prob now : ℚ) : VadState × List VadEvent :=
  if cfg.speech_threshold ≤ prob then
    if st.is_speaking then ({ st with silence_start := none }, [])
    else ({ is_speaking := true, silence_start := none, speech_start := some now },
          [VadEvent.speechStart now])
  else
    if st.is_speaking then
      match st.silence_start with
      | none => ({ st with silence_start := some now }, [])
      | some s =>
        if cfg.silence_timeout ≤ now - s then
          ({ is_speaking := false, silence_start := none, speech_start := none },
           [VadEvent.speechEnd now (now - (st.speech_start.getD now))])
        else (st, [])
    else (st, [])

/-- Iterated `process` over a whole list of frames (probability, arrival time),
accumulating the emitted events in order. -/
def vadRun (cfg : VadConfig) (st : VadState) : List (ℚ × ℚ) → VadState × List VadEvent
  | [] => (st, [])
  | (prob, now) :: rest =>
    ((vadRun cfg (vadStep cfg st prob now).1 rest).1,
     (vadStep cfg st prob now).2 ++ (vadRun cfg (vadStep cfg st prob now).1 rest).2)

/-! ## Float-to-PCM conversion (src/asr/voxtral.py, `VoxtralASR.feed_audio`) -/

/-- Truncation toward zero, as performed by numpy's `astype(np.int16)` on an
in-range float. -/
def truncQ (q : ℚ) : ℤ :=
  if 0 ≤ q then ⌊q⌋ else ⌈q⌉

/-- The per-sample conversion of `feed_audio` (asr/voxtral.py line 127):
`np.clip(audio * 32767, -32768, 32767).astype(np.int16)`. -/
def pcm16 (x : ℚ) : ℤ :=
  truncQ (min (max (x * 32767) (-32768)) 32767)

/-! ## Orchestrator (src/orchestrator.py)

The detect/respond sequence `_check_and_respond` and the trigger test of the
main loop `run` are embedded with explicit state passing.  External
collaborators (transcript read, intent classifier, response generator,
recognizer-bridge stop/start/ready-wait, synthesizer, playback) become
`Except`-valued oracles fixed in an environment; each invocation is also
recorded in an operation trace so that ordering and frame properties can be
stated.  UI callbacks are omitted: in the source every callback invocation is
wrapped in `try/except Exception: pass`, so they can affect neither state nor
control flow. -/

/-- Orchestrator states (orchestrator.py, `State`). -/
inductive OState where
  | IDLE
  | LISTENING
  | DETECTING
  | THINKING
  | SPEAKING
  | MUTED
deriving DecidableEq, Repr

/-- The orchestrator fields read and written by the code under study. -/
structure OrchState where
  state : OState
  muted : Bool
  pending_check : Bool
  last_speech_time : ℚ
  last_checked_speech_time : ℚ
deriving DecidableEq, Repr

/-- Transition function `Orchestrator._set_state` (orchestrator.py
lines 113-123): while muted,
every transition except to MUTED is suppressed. -/
def setState (s : OrchState) (st : OState) : OrchState :=
  if s.muted ∧ st ≠ OState.MUTED then s else { s with state := st }

/-- External operations invoked by the detect/respond sequence, recorded in
invocation order. -/
inductive Op where
  | classify
  | generate
  | asrStop
  | synth
  | play
  | asrStart
  | waitReady
deriving DecidableEq, Repr

/-- Outcomes of the fallible external collaborators for one run of the
sequence.  `.error` means the call raises an (ordinary, `Exception`-class)
exception at that point. -/
structure Env where
  recentText : Except Unit (List Char)
  classify : Except Unit IntentResult
  generate : Except Unit String
  asrStop : Except Unit Unit
  synthesize : Except Unit Unit
  play : Except Unit Unit
  asrStart : Except Unit Unit
  waitReady : Except Unit Unit

/-- The body of `_check_and_respond`'s outer `try` (orchestrator.py
lines 275-389), force flag included.  Returns the state on exit, the trace of
external operations, and whether an exception escaped the body (to be caught
by the outer `except`). -/
def carBody (env : Env) (gate : ConfidenceGate) (force : Bool) (s0 : OrchState) :
    OrchState × List Op × Bool :=
  let s := setState s0 OState.DETECTING
  match env.recentText with
  | Except.error _ => (s, [], true)
  | Except.ok recent_text =>
  if pyStrip recent_text = [] then
    -- early return: empty transcript (lines 279-282)
    let s := setState s OState.IDLE
    ({ s with pending_check := false }, [], false)
  else
  match env.classify with
  | Except.error _ => (s, [Op.classify], true)
  | Except.ok intent =>
  let decision :=
    if force then { action := Action.RESPOND, reason := "Forced", intent := intent }
    else gate.decide intent
  if decision.action ≠ Action.RESPOND ∨ s.muted then
    -- early return: non-RESPOND decision or muted (lines 307-311)
    let s := setState s OState.IDLE
    ({ s with pending_check := false }, [Op.classify], false)
  else
  let s := setState s OState.THINKING
  match env.generate with
  | Except.error _ => (s, [Op.classify, Op.generate], true)
  | Except.ok _ =>
  let s := setState s OState.SPEAKING
  -- inner try (lines 343-374): stop ASR, synthesize, play (playback errors
  -- are swallowed by their own handler, lines 369-373)
  let inner : OrchState × List Op × Bool :=
    match env.asrStop with
    | Except.error _ => (s, [Op.asrStop], true)
    | Except.ok _ =>
      match env.synthesize with
      | Except.error _ => (s, [Op.asrStop, Op.synth], true)
      | Except.ok _ =>
        if ¬ s.muted then (s, [Op.asrStop, Op.synth, Op.play], false)
        else (s, [Op.asrStop, Op.synth], false)
  let sIn := inner.1
  let trIn := inner.2.1
  let innerExc := inner.2.2
  -- inner except (lines 375-378): set IDLE, then return after the finally
  let sExc := if innerExc then setState sIn OState.IDLE else sIn
  let pre := [Op.classify, Op.generate]
  -- inner finally (lines 379-386): restart ASR, await readiness, then mark
  -- the current speech as checked; an exception here escapes to the outer
  -- handler before the timestamp is advanced
  match env.asrStart with
  | Except.error _ => (sExc, pre ++ trIn ++ [Op.asrStart], true)
  | Except.ok _ =>
  match env.waitReady with
  | Except.error _ => (sExc, pre ++ trIn ++ [Op.asrStart, Op.waitReady], true)
  | Except.ok _ =>
  let sFin := { sExc with last_checked_speech_time := sExc.last_speech_time }
  if innerExc then (sFin, pre ++ trIn ++ [Op.asrStart, Op.waitReady], false)
  else
    -- normal completion (lines 388-389)
    (setState sFin OState.IDLE, pre ++ trIn ++ [Op.asrStart, Op.waitReady], false)

/-- Sequence `Orchestrator._check_and_respond` (orchestrator.py
lines 273-395): the
body, the outer `except Exception` (which resolves to IDLE), and the outer
`finally` (which unconditionally clears the pending-check flag). -/
def checkAndRespond (env : Env) (gate : ConfidenceGate) (force : Bool) (s0 : OrchState) :
    OrchState × List Op :=
  let r := carBody env gate force s0
  let s1 := if r.2.2 then setState r.1 OState.IDLE else r.1
  ({ s1 with pending_check := false }, r.2.1)

/-- Control `Orchestrator.force_respond` (orchestrator.py lines 137-141)
together with
the forced sequence it schedules: a no-op guard when already SPEAKING or
THINKING, otherwise `_check_and_respond(force=True)`. -/
def forceRespond (env : Env) (gate : ConfidenceGate) (s : OrchState) : OrchState × List Op :=
  if s.state = OState.SPEAKING ∨ s.state = OState.THINKING then (s, [])
  else checkAndRespond env gate true s

/-- One iteration of the silence check in `Orchestrator.run` (orchestrator.py
lines 250-268) at monotonic time `now`, given the configured silence interval:
returns the updated state and whether a detect/respond check was triggered. -/
def runStep (interval now : ℚ) (s : OrchState) : OrchState × Bool :=
  let time_since_speech : ℚ := if 0 < s.last_speech_time then now - s.last_speech_time else 0
  let has_new_speech : Prop := s.last_checked_speech_time < s.last_speech_time
  if _h : has_new_speech ∧ interval < time_since_speech ∧ s.pending_check = false ∧
      (s.state = OState.IDLE ∨ s.state = OState.LISTENING) then
    let s1 := { s with pending_check := true,
                       last_checked_speech_time := s.last_speech_time }
    (setState s1 OState.DETECTING, true)
  else (s, false)

/-! ## Theorems -/

/-- C5: for every `IntentResult`, `ConfidenceGate.decide` returns SILENT with
the "no response needed" reason when `needs_response` is false (for any
confidence); RESPOND with a reason reporting the confidence percentage when
`needs_response` is true and `confidence ≥ auto_threshold`; and otherwise
SILENT with a "low confidence" reason carrying the percentage. -/
theorem C5_gate_decide (g : ConfidenceGate) (i : IntentResult) :
    (i.needs_response = false →
      (g.decide i).action = Action.SILENT ∧
      (g.decide i).reason = "No response needed") ∧
    (i.needs_response = true → g.auto_threshold ≤ i.confidence →
      (g.decide i).action = Action.RESPOND ∧
      (g.decide i).reason = "Confident (" ++ formatPct i.confidence ++ ")") ∧
    (i.needs_response = true → i.confidence < g.auto_threshold →
      (g.decide i).action = Action.SILENT ∧
      (g.decide i).reason = "Low confidence (" ++ formatPct i.confidence ++ ")") := by
  refine ⟨fun h => ?_, fun h hc => ?_, fun h hc => ?_⟩
  · simp [ConfidenceGate.decide, h]
  · simp [ConfidenceGate.decide, h, hc]
  · simp [ConfidenceGate.decide, h, not_le.mpr hc]

theorem C5_gate_decide_witness :
    (ConfidenceGate.decide ⟨4/5⟩ ⟨false, 9/10, "", ""⟩).action = Action.SILENT ∧
    (ConfidenceGate.decide ⟨4/5⟩ ⟨true, 9/10, "", ""⟩).action = Action.RESPOND ∧
    (ConfidenceGate.decide ⟨4/5⟩ ⟨true, 1/2, "", ""⟩).action = Action.SILENT :=
  ⟨((C5_gate_decide ⟨4/5⟩ ⟨false, 9/10, "", ""⟩).1 rfl).1,
   ((C5_gate_decide ⟨4/5⟩ ⟨true, 9/10, "", ""⟩).2.1 rfl (by norm_num)).1,
   ((C5_gate_decide ⟨4/5⟩ ⟨true, 1/2, "", ""⟩).2.2 rfl (by norm_num)).1⟩

/-- C6 counterexample: a single-sample input resampled from rate 2 to rate 3
has output length `int(1 * 1.5) = 1`, while the claimed formula
`round(N * t / f)` gives `round(1.5) = 2` (Python's round is half-to-even). -/
theorem C6_resample_length_cex :
    (pyResample [(0 : ℚ)] 2 3).length = 1 ∧
    roundHalfEven (((([(0 : ℚ)]).length : ℚ) * 3) / 2) = 2 := by
  constructor
  · have : ((([(0 : ℚ)]).length : ℚ) * ((3 : ℕ) / (2 : ℕ) : ℚ)) = 3 / 2 := by norm_num
    simp only [pyResample, List.length_map, List.length_range]
    norm_num
  · norm_num [roundHalfEven]

/-- C6 amended: for every input and positive rates, the resampler's output
has length `⌊N * t / f⌋` (Python's `int(...)` truncation of the non-negative
ratio, not rounding), and when `f = t` the output is the input unchanged. -/
theorem C6_resample_length (audio_in : List ℚ) (f t : ℕ) (hf : 0 < f) (ht : 0 < t) :
    (pyResample audio_in f t).length = (⌊((audio_in.length : ℚ) * t) / f⌋).toNat ∧
    (f = t → pyResample audio_in f t = audio_in) := by
  constructor
  · by_cases hft : f = t
    · subst hft
      have hne : (f : ℚ) ≠ 0 := Nat.cast_ne_zero.mpr hf.ne'
      simp [pyResample, mul_div_assoc, div_self hne]
    · have harg : (audio_in.length : ℚ) * ((t : ℚ) / (f : ℚ)) = ((audio_in.length : ℚ) * t) / f := by
        ring
      simp only [pyResample, if_neg hft, List.length_map, List.length_range, harg]
  · intro hft
    simp [pyResample, hft]

theorem C6_resample_length_witness :
    (pyResample [(1 : ℚ), 2, 3, 4] 2 3).length = (⌊(((4 : ℕ) : ℚ) * 3) / 2⌋).toNat ∧
    pyResample [(1 : ℚ), 2, 3, 4] 2 2 = [(1 : ℚ), 2, 3, 4] :=
  ⟨(C6_resample_length [(1 : ℚ), 2, 3, 4] 2 3 (by norm_num) (by norm_num)).1,
   (C6_resample_length [(1 : ℚ), 2, 3, 4] 2 2 (by norm_num) (by norm_num)).2 rfl⟩

/-- The flattened length of a list of uniform-length chunks. -/
theorem flatten_length_uniform (L : List (List ℚ)) (b : ℕ) (h : ∀ c ∈ L, c.length = b) :
    L.flatten.length = L.length * b := by
  induction L with
  | nil => simp
  | cons c cs ih =>
    simp only [List.flatten_cons, List.length_append, List.length_cons]
    rw [h c (by simp), ih (fun d hd => h d (by simp [hd]))]
    ring

/-- C7 counterexample: with rate 5, block size 2 and three buffered chunks
(6 samples = 1.2 s), requesting 1 s returns `int(5/2) = 2` trailing chunks,
i.e. 4 samples = 0.8 s — strictly less than the requested duration even
though the buffer holds more than it. -/
theorem C7_recent_audio_cex :
    (1 : ℚ) * ((5 : ℕ) : ℚ) ≤
      ((([[(0 : ℚ), 0], [1, 1], [2, 2]] : List (List ℚ)).flatten.length : ℚ)) ∧
    ((get_recent_audio ⟨[[(0 : ℚ), 0], [1, 1], [2, 2]], 5, 2⟩ 1).length : ℚ) <
      1 * ((5 : ℕ) : ℚ) := by
  constructor
  · simp
    norm_num
  · have hk : (⌊(1 : ℚ) * ((5 : ℕ) : ℚ) / ((2 : ℕ) : ℚ)⌋).toNat = 2 := by
      rw [show ⌊(1 : ℚ) * ((5 : ℕ) : ℚ) / ((2 : ℕ) : ℚ)⌋ = 2 by norm_num]
      rfl
    simp only [get_recent_audio, hk]
    norm_num

/-- C7 amended: `get_recent_audio(seconds)` returns the concatenation of the
last `⌊seconds * rate / block_size⌋` buffered chunks (the whole buffer when
that count is zero or exceeds the number of chunks): a trailing suffix of the
buffered audio that covers more than the requested duration **minus one
chunk** — it can fall short of the requested duration by up to one chunk,
because the chunk count is truncated down — and an empty result if the buffer
is empty. -/
theorem C7_recent_audio (st : CaptureState) (seconds : ℚ)
    (hb : 0 < st.block_size) (hs : 0 < seconds)
    (hu : ∀ c ∈ st.ring_buffer, c.length = st.block_size) :
    (get_recent_audio st seconds).IsSuffix st.ring_buffer.flatten ∧
    (st.ring_buffer = [] → get_recent_audio st seconds = []) ∧
    (seconds * (st.sample_rate : ℚ) ≤ (st.ring_buffer.flatten.length : ℚ) →
      seconds * (st.sample_rate : ℚ) - (st.block_size : ℚ) <
        ((get_recent_audio st seconds).length : ℚ)) := by
  have hga : get_recent_audio st seconds =
      (if (⌊seconds * (st.sample_rate : ℚ) / (st.block_size : ℚ)⌋).toNat = 0 then st.ring_buffer
       else st.ring_buffer.drop
         (st.ring_buffer.length - (⌊seconds * (st.sample_rate : ℚ) / (st.block_size : ℚ)⌋).toNat)).flatten :=
    rfl
  set k := (⌊seconds * (st.sample_rate : ℚ) / (st.block_size : ℚ)⌋).toNat with hkdef
  have hbQ : (0 : ℚ) < (st.block_size : ℚ) := by exact_mod_cast hb
  refine ⟨?_, ?_, ?_⟩
  · rw [hga]
    split
    · exact List.suffix_refl _
    · exact ⟨(st.ring_buffer.take (st.ring_buffer.length - k)).flatten,
        by rw [← List.flatten_append, List.take_append_drop]⟩
  · intro h
    rw [hga, h]
    split <;> simp
  · intro htot
    have htotlen : st.ring_buffer.flatten.length = st.ring_buffer.length * st.block_size :=
      flatten_length_uniform _ _ hu
    rw [hga]
    by_cases hk0 : k = 0
    · rw [if_pos hk0]
      linarith
    · rw [if_neg hk0]
      have hdrop_u : ∀ c ∈ st.ring_buffer.drop (st.ring_buffer.length - k),
          c.length = st.block_size :=
        fun c hc => hu c (List.drop_subset _ _ hc)
      have hlen : (st.ring_buffer.drop (st.ring_buffer.length - k)).flatten.length
          = (st.ring_buffer.length - (st.ring_buffer.length - k)) * st.block_size := by
        rw [flatten_length_uniform _ _ hdrop_u, List.length_drop]
      by_cases hkn : st.ring_buffer.length ≤ k
      · have hm : st.ring_buffer.length - (st.ring_buffer.length - k) = st.ring_buffer.length := by
          omega
        rw [hlen, hm]
        have : ((st.ring_buffer.length * st.block_size : ℕ) : ℚ) =
            (st.ring_buffer.flatten.length : ℚ) := by exact_mod_cast htotlen.symm
        rw [this]
        linarith
      · have hm : st.ring_buffer.length - (st.ring_buffer.length - k) = k := by omega
        rw [hlen, hm]
        have hq0 : (0 : ℚ) ≤ seconds * (st.sample_rate : ℚ) / (st.block_size : ℚ) :=
          div_nonneg (mul_nonneg hs.le (Nat.cast_nonneg _)) hbQ.le
        have hfl : (0 : ℤ) ≤ ⌊seconds * (st.sample_rate : ℚ) / (st.block_size : ℚ)⌋ :=
          Int.floor_nonneg.mpr hq0
        have hkQ : ((k : ℕ) : ℚ) = ((⌊seconds * (st.sample_rate : ℚ) / (st.block_size : ℚ)⌋ : ℤ) : ℚ) := by
          rw [hkdef]
          exact_mod_cast congrArg (fun z : ℤ => (z : ℚ)) (Int.toNat_of_nonneg hfl)
        have hgt : seconds * (st.sample_rate : ℚ) / (st.block_size : ℚ) - 1 <
            ((⌊seconds * (st.sample_rate : ℚ) / (st.block_size : ℚ)⌋ : ℤ) : ℚ) :=
          Int.sub_one_lt_floor _
        have hmul : (seconds * (st.sample_rate : ℚ) / (st.block_size : ℚ)) * (st.block_size : ℚ) =
            seconds * (st.sample_rate : ℚ) := div_mul_cancel₀ _ hbQ.ne'
        have hcast : (((k * st.block_size : ℕ)) : ℚ) = ((k : ℕ) : ℚ) * (st.block_size : ℚ) := by
          push_cast
          ring
        rw [hcast, hkQ]
        nlinarith

theorem C7_recent_audio_witness :
    (1 : ℚ) * ((5 : ℕ) : ℚ) - ((2 : ℕ) : ℚ) <
      ((get_recent_audio ⟨[[(0 : ℚ), 0], [1, 1], [2, 2]], 5, 2⟩ 1).length : ℚ) :=
  (C7_recent_audio ⟨[[(0 : ℚ), 0], [1, 1], [2, 2]], 5, 2⟩ 1 (by norm_num) (by norm_num)
    (by intro c hc; simp only [List.mem_cons, List.not_mem_nil, or_false] at hc
        rcases hc with rfl | rfl | rfl <;> rfl)).2.2 (by simp; norm_num)

/-- Shifting a boundary test across a cons cell. -/
theorem specBoundary_cons_succ (c : Char) (l : List Char) (i : ℕ) :
    specBoundary (c :: l) (i + 1) = specBoundary l i := by
  simp [specBoundary, List.getD_cons_succ, List.length_cons]

/-- Computing `specFind` one cons cell at a time. -/
theorem specFind_cons (c : Char) (l : List Char) :
    specFind (c :: l) =
      if specBoundary (c :: l) 0 then some 0 else (specFind l).map Nat.succ := by
  have hfun : ((fun i => specBoundary (c :: l) i) ∘ Nat.succ) = (fun i => specBoundary l i) := by
    funext i
    exact specBoundary_cons_succ c l i
  unfold specFind
  rw [List.length_cons, List.range_succ_eq_map]
  by_cases h : specBoundary (c :: l) 0 = true
  · rw [if_pos h]
    rw [List.find?_cons_of_pos _ h]
  · rw [if_neg h]
    rw [List.find?_cons_of_neg _ (by simpa using h), List.find?_map, hfun]

/-- The code's left-to-right scan finds exactly the leftmost boundary. -/
theorem findBoundary_eq_specFind : ∀ l : List Char, findBoundary l = specFind l
  | [] => rfl
  | [c] => by
    rw [specFind_cons]
    have hb : specBoundary [c] 0 = isTerm c := by
      cases hc : isTerm c <;> simp [specBoundary, hc]
    rw [hb]
    cases h : isTerm c with
    | false => simp [findBoundary, h, specFind]
    | true => simp [findBoundary, h]
  | c :: d :: rest => by
    rw [specFind_cons]
    by_cases h : isTerm c = true ∧ d = ' '
    · have hpos : specBoundary (c :: d :: rest) 0 = true := by
        apply decide_eq_true
        exact ⟨h.1, Or.inr h.2⟩
      rw [hpos, if_pos rfl]
      simp only [findBoundary]
      rw [if_pos h]
    · have hzero : specBoundary (c :: d :: rest) 0 = false := by
        apply decide_eq_false
        rintro ⟨h1, h2 | h2⟩
        · simp at h2
        · exact h ⟨h1, h2⟩
      rw [hzero, if_neg (by simp)]
      simp only [findBoundary]
      rw [if_neg h, findBoundary_eq_specFind (d :: rest)]
      cases specFind (d :: rest) <;> rfl

/-- A character that survives `dropWhile`. -/
theorem mem_dropWhile_of_mem {c : Char} {p : Char → Bool} :
    ∀ {l : List Char}, c ∈ l → p c = false → c ∈ l.dropWhile p := by
  intro l
  induction l with
  | nil => intro h _; cases h
  | cons x xs ih =>
    intro hc hp
    rw [List.dropWhile_cons]
    split
    · rcases List.mem_cons.mp hc with rfl | h
      · simp_all
      · exact ih h hp
    · exact hc

/-- Stripping cannot erase a list that contains a non-whitespace character. -/
theorem pyStrip_ne_nil {c : Char} {l : List Char} (hc : c ∈ l) (hp : isPySpace c = false) :
    pyStrip l ≠ [] := by
  intro h
  unfold pyStrip at h
  rw [List.reverse_eq_nil_iff, List.dropWhile_eq_nil_iff] at h
  have h2 : c ∈ l.dropWhile isPySpace := mem_dropWhile_of_mem hc hp
  have := h c (List.mem_reverse.mpr h2)
  simp_all

/-- At a found boundary, the cut sentence strips to a non-empty text (it
contains the terminal punctuation character, which is not whitespace). -/
theorem specFind_sentence_ne_nil {l : List Char} {i : ℕ} (h : specFind l = some i) :
    pyStrip (l.take (i + 1)) ≠ [] := by
  have hmem : i ∈ List.range l.length := List.mem_of_find?_eq_some h
  have hi : i < l.length := List.mem_range.mp hmem
  have hb : specBoundary l i = true := List.find?_some h
  have hterm : isTerm (l.getD i ' ') = true := by
    have := of_decide_eq_true hb
    exact this.1
  have hgd : l.getD i ' ' = l[i] := List.getD_eq_getElem l ' ' hi
  have hlen : i < (l.take (i + 1)).length := by
    rw [List.length_take]
    omega
  have htake : (l.take (i + 1))[i] = l[i] := List.getElem_take l
  have hmemtake : l[i] ∈ l.take (i + 1) := by
    rw [← htake]
    exact List.getElem_mem hlen
  have hsp : isPySpace l[i] = false := by
    rw [hgd] at hterm
    rcases of_decide_eq_true hterm with h1 | h1 | h1 <;> rw [h1] <;> decide
  exact pyStrip_ne_nil hmemtake hsp

/-- The code's emission loop agrees with the leftmost-boundary description. -/
theorem splitLoop_eq_specLoop : ∀ (fuel : ℕ) (l : List Char),
    splitLoop fuel l = specLoop fuel l := by
  intro fuel
  induction fuel with
  | zero => intro l; rfl
  | succ n ih =>
    intro l
    unfold splitLoop specLoop
    rw [findBoundary_eq_specFind]
    cases h : specFind l with
    | none => rfl
    | some i =>
      have hne := specFind_sentence_ne_nil h
      simp only [ih, hne, ne_eq, not_false_eq_true, if_true]
      simp [hne]

/-- Equivalence: `add_text` emits exactly the leftmost-boundary segments
(space variant). -/
theorem add_text_eq_specAddText (pending text : List Char) :
    add_text pending text = specAddText pending text := by
  unfold add_text specAddText
  exact splitLoop_eq_specLoop _ _

/-- C8 counterexample: the buffer `"A.\tB"` contains `'.'` followed by
whitespace (a tab), so the claimed rule finalizes the segment `"A."` and
retains `"B"`; the code requires a literal space after the punctuation
(buffer.py line 40) and finalizes nothing. -/
theorem C8_add_text_cex :
    add_text [] ['A', '.', '\t', 'B'] = ([], ['A', '.', '\t', 'B']) ∧
    claimAddTextWs [] ['A', '.', '\t', 'B'] = ([['A', '.']], ['B']) := by decide

/-- C8 amended: a finalized (trimmed) segment is emitted exactly at each
occurrence of sentence-terminal punctuation followed by a **space character**
(not arbitrary whitespace) or end-of-buffer, with the remainder retained; the
spec's two-call example behaves as claimed. -/
theorem C8_transcript_segments (pending text : List Char) :
    add_text pending text = specAddText pending text ∧
    addTextStr "" "Hello there. How are" = (["Hello there."], "How are") ∧
    addTextStr "How are" " you?" = (["How are you?"], "") :=
  ⟨add_text_eq_specAddText pending text, by decide, by decide⟩

/-- Running the detector over concatenated frame lists. -/
theorem vadRun_append (cfg : VadConfig) (a : List (ℚ × ℚ)) :
    ∀ (st : VadState) (b : List (ℚ × ℚ)),
      vadRun cfg st (a ++ b) =
        ((vadRun cfg (vadRun cfg st a).1 b).1,
         (vadRun cfg st a).2 ++ (vadRun cfg (vadRun cfg st a).1 b).2) := by
  induction a with
  | nil => intro st b; simp [vadRun]
  | cons f rest ih =>
    intro st b
    obtain ⟨p, u⟩ := f
    simp only [List.cons_append, vadRun, List.append_eq]
    rw [ih ((vadStep cfg st p u).1) b]
    simp [List.append_assoc]

/-- High-probability frames while already speaking leave the state unchanged
and emit nothing. -/
theorem vadRun_high (cfg : VadConfig) (t0 : ℚ) :
    ∀ l : List (ℚ × ℚ), (∀ f ∈ l, cfg.speech_threshold ≤ f.1) →
      vadRun cfg ⟨true, none, some t0⟩ l = (⟨true, none, some t0⟩, []) := by
  intro l
  induction l with
  | nil => intro _; rfl
  | cons f rest ih =>
    intro h
    obtain ⟨p, u⟩ := f
    have hp : cfg.speech_threshold ≤ p := h (p, u) (by simp)
    have hstep : vadStep cfg ⟨true, none, some t0⟩ p u = (⟨true, none, some t0⟩, []) := by
      simp [vadStep, hp]
    simp only [vadRun, hstep, ih (fun g hg => h g (by simp [hg]))]
    simp

/-- Low-probability frames while not speaking leave the state unchanged and
emit nothing. -/
theorem vadRun_idle (cfg : VadConfig) :
    ∀ l : List (ℚ × ℚ), (∀ f ∈ l, f.1 < cfg.speech_threshold) →
      vadRun cfg ⟨false, none, none⟩ l = (⟨false, none, none⟩, []) := by
  intro l
  induction l with
  | nil => intro _; rfl
  | cons f rest ih =>
    intro h
    obtain ⟨p, u⟩ := f
    have hp : p < cfg.speech_threshold := h (p, u) (by simp)
    have hstep : vadStep cfg ⟨false, none, none⟩ p u = (⟨false, none, none⟩, []) := by
      simp [vadStep, not_le.mpr hp]
    simp only [vadRun, hstep, ih (fun g hg => h g (by simp [hg]))]
    simp

/-- Once the silence timer is armed at `u0` while speaking (speech started at
`t0`), a run of low-probability frames containing one at least
`silence_timeout` after `u0` emits exactly one speech-end, whose duration is
measured from `t0`. -/
theorem vadRun_silence (cfg : VadConfig) (u0 t0 : ℚ) :
    ∀ l : List (ℚ × ℚ), (∀ f ∈ l, f.1 < cfg.speech_threshold) →
      (∃ f ∈ l, cfg.silence_timeout ≤ f.2 - u0) →
      ∃ te, cfg.silence_timeout ≤ te - u0 ∧
        vadRun cfg ⟨true, some u0, some t0⟩ l =
          (⟨false, none, none⟩, [VadEvent.speechEnd te (te - t0)]) := by
  intro l
  induction l with
  | nil =>
    rintro _ ⟨f, hf, _⟩
    cases hf
  | cons f rest ih =>
    rintro h ⟨g, hg, hgt⟩
    obtain ⟨p, u⟩ := f
    have hp : p < cfg.speech_threshold := h (p, u) (by simp)
    by_cases hu : cfg.silence_timeout ≤ u - u0
    · refine ⟨u, hu, ?_⟩
      have hstep : vadStep cfg ⟨true, some u0, some t0⟩ p u =
          (⟨false, none, none⟩, [VadEvent.speechEnd u (u - t0)]) := by
        simp [vadStep, not_le.mpr hp, hu]
      have hrest := vadRun_idle cfg rest (fun g2 hg2 => h g2 (by simp [hg2]))
      simp only [vadRun, hstep, hrest]
      simp
    · have hstep : vadStep cfg ⟨true, some u0, some t0⟩ p u =
          (⟨true, some u0, some t0⟩, []) := by
        simp [vadStep, not_le.mpr hp, hu]
      have hgrest : g ∈ rest := by
        rcases List.mem_cons.mp hg with rfl | hr
        · exact absurd hgt hu
        · exact hr
      obtain ⟨te, hte, hrun⟩ := ih (fun g2 hg2 => h g2 (by simp [hg2])) ⟨g, hgrest, hgt⟩
      refine ⟨te, hte, ?_⟩
      simp only [vadRun, hstep, hrun]
      simp

/-- C9: a frame sequence that starts not-speaking, stays at or above the
speech threshold for K ≥ 1 frames, then stays below it over a span of at
least `silence_timeout` produces exactly one speech-start followed by exactly
one speech-end, whose duration is the elapsed time between the two
emissions. -/
theorem C9_vad_boundary (cfg : VadConfig) (p0 t0 : ℚ) (hrest lows : List (ℚ × ℚ))
    (htmo : 0 < cfg.silence_timeout)
    (hp0 : cfg.speech_threshold ≤ p0)
    (hhigh : ∀ f ∈ hrest, cfg.speech_threshold ≤ f.1)
    (hlow : ∀ f ∈ lows, f.1 < cfg.speech_threshold)
    (hne : lows ≠ [])
    (hspan : cfg.silence_timeout ≤ (lows.getLast hne).2 - (lows.head hne).2) :
    ∃ te,
      (vadRun cfg VadState.init (((p0, t0) :: hrest) ++ lows)).2 =
        [VadEvent.speechStart t0, VadEvent.speechEnd te (te - t0)] := by
  have hstep0 : vadStep cfg VadState.init p0 t0 =
      (⟨true, none, some t0⟩, [VadEvent.speechStart t0]) := by
    simp [vadStep, hp0, VadState.init]
  obtain ⟨pl, u0, lrest, rfl⟩ : ∃ pl u0 rest2, lows = (pl, u0) :: rest2 := by
    cases lows with
    | nil => exact absurd rfl hne
    | cons f r => exact ⟨f.1, f.2, r, rfl⟩
  have hpl : pl < cfg.speech_threshold := hlow (pl, u0) (by simp)
  have hstepl : vadStep cfg ⟨true, none, some t0⟩ pl u0 =
      (⟨true, some u0, some t0⟩, []) := by
    simp [vadStep, not_le.mpr hpl]
  have hlrest_ne : lrest ≠ [] := by
    intro hnil
    subst hnil
    simp [List.getLast, List.head] at hspan
    linarith
  have hlast_mem : ((pl, u0) :: lrest).getLast hne ∈ lrest := by
    rw [List.getLast_cons hlrest_ne]
    exact List.getLast_mem hlrest_ne
  have hex : ∃ f ∈ lrest, cfg.silence_timeout ≤ f.2 - u0 := by
    refine ⟨((pl, u0) :: lrest).getLast hne, hlast_mem, ?_⟩
    have hh : ((pl, u0) :: lrest).head hne = (pl, u0) := rfl
    rw [hh] at hspan
    exact hspan
  obtain ⟨te, hte, hrun⟩ := vadRun_silence cfg u0 t0 lrest
    (fun g hg => hlow g (by simp [hg])) hex
  have hA : vadRun cfg VadState.init ((p0, t0) :: hrest) =
      (⟨true, none, some t0⟩, [VadEvent.speechStart t0]) := by
    simp only [vadRun, hstep0, vadRun_high cfg t0 hrest hhigh]
    simp
  have hB : vadRun cfg ⟨true, none, some t0⟩ ((pl, u0) :: lrest) =
      (⟨false, none, none⟩, [VadEvent.speechEnd te (te - t0)]) := by
    simp only [vadRun, hstepl, hrun]
    simp
  refine ⟨te, ?_⟩
  rw [vadRun_append, hA, hB]
  rfl

theorem C9_vad_boundary_witness :
    ∃ te,
      (vadRun ⟨2, 1⟩ VadState.init
        ((((2 : ℚ), (0 : ℚ)) :: [((2 : ℚ), (1 : ℚ))]) ++
          [((0 : ℚ), (2 : ℚ)), ((0 : ℚ), (3 : ℚ)), ((0 : ℚ), (4 : ℚ)), ((0 : ℚ), (5 : ℚ))])).2 =
      [VadEvent.speechStart 0, VadEvent.speechEnd te (te - 0)] :=
  C9_vad_boundary ⟨2, 1⟩ 2 0 [(2, 1)] [(0, 2), (0, 3), (0, 4), (0, 5)]
    (by norm_num) (by norm_num)
    (by intro f hf; simp at hf; rw [hf]; norm_num)
    (by intro f hf; simp at hf
        rcases hf with rfl | rfl | rfl | rfl <;> norm_num)
    (by simp)
    (by simp [List.getLast, List.head]; norm_num)

/-- C10 counterexample: for the out-of-range sample `x = -1.00002`, the code
produces `pcm16 x = -32767` (clip leaves `x * 32767 ≈ -32767.655` untouched
and `astype(int16)` truncates toward zero), but the nearest representable
int16 value, `-32768`, is strictly closer to the scaled sample. -/
theorem C10_pcm16_cex :
    pcm16 (-(50001 / 50000 : ℚ)) = -32767 ∧
    |(-(50001 / 50000 : ℚ)) * 32767 - (-32768)| <
      |(-(50001 / 50000 : ℚ)) * 32767 - (-32767)| := by
  constructor
  · have hx : (-(50001 / 50000 : ℚ)) * 32767 = -(1638382767 / 50000 : ℚ) := by norm_num
    rw [pcm16, hx,
      max_eq_left (by norm_num : (-32768 : ℚ) ≤ -(1638382767 / 50000 : ℚ)),
      min_eq_left (by norm_num : -(1638382767 / 50000 : ℚ) ≤ (32767 : ℚ)),
      truncQ, if_neg (by norm_num)]
    rw [Int.ceil_eq_iff]
    norm_num
  · rw [abs_of_pos (by norm_num), abs_of_neg (by norm_num)]
    norm_num

/-- C10 amended: every sample is scaled by 32767, clamped into
`[-32768, 32767]`, and truncated toward zero — so the result always lies in
the int16 range (never wraparound), samples ≥ 1.0 saturate to 32767, samples
≤ -32768/32767 saturate to -32768, and in-range samples are the scaled value
truncated toward zero (which can differ by one from the nearest int16). -/
theorem C10_pcm16_saturation (x : ℚ) :
    -32768 ≤ pcm16 x ∧ pcm16 x ≤ 32767 ∧
    (1 ≤ x → pcm16 x = 32767) ∧
    (x ≤ -(32768 / 32767 : ℚ) → pcm16 x = -32768) ∧
    (-1 ≤ x → x ≤ 1 → pcm16 x = truncQ (x * 32767)) := by
  set y : ℚ := min (max (x * 32767) (-32768)) 32767 with hy
  have hylo : (-32768 : ℚ) ≤ y := le_min (le_max_right _ _) (by norm_num)
  have hyhi : y ≤ 32767 := min_le_right _ _
  have htr_lo : -32768 ≤ truncQ y := by
    unfold truncQ
    split
    · calc (-32768 : ℤ) ≤ 0 := by norm_num
        _ ≤ ⌊y⌋ := Int.floor_nonneg.mpr (by assumption)
    · have : (⌈(-32768 : ℚ)⌉ : ℤ) ≤ ⌈y⌉ := Int.ceil_le_ceil hylo
      simpa using this
  have htr_hi : truncQ y ≤ 32767 := by
    unfold truncQ
    split
    · have : (⌊y⌋ : ℤ) ≤ ⌊(32767 : ℚ)⌋ := Int.floor_le_floor hyhi
      simpa using this
    · have hy0 : y ≤ 0 := le_of_not_le (by assumption)
      have hc0 : (⌈y⌉ : ℤ) ≤ ⌈(0 : ℚ)⌉ := Int.ceil_le_ceil hy0
      simp only [Int.ceil_zero] at hc0
      exact le_trans hc0 (by norm_num)
  refine ⟨htr_lo, htr_hi, fun h1 => ?_, fun h2 => ?_, fun hm1 hp1 => ?_⟩
  · have hxs : (32767 : ℚ) ≤ x * 32767 := by nlinarith
    have : y = 32767 := by
      rw [hy, max_eq_left (by linarith), min_eq_right hxs]
    rw [pcm16, ← hy, this]
    norm_num [truncQ]
  · have hxs : x * 32767 ≤ -32768 := by nlinarith
    have : y = -32768 := by
      rw [hy, max_eq_right hxs, min_eq_left (by norm_num)]
    rw [pcm16, ← hy, this, truncQ, if_neg (by norm_num)]
    rw [show ((-32768 : ℚ)) = ((-32768 : ℤ) : ℚ) by norm_num, Int.ceil_intCast]
  · have hlo : (-32768 : ℚ) ≤ x * 32767 := by nlinarith
    have hhi : x * 32767 ≤ 32767 := by nlinarith
    have : y = x * 32767 := by
      rw [hy, max_eq_left hlo, min_eq_left hhi]
    rw [pcm16, ← hy, this]

theorem C10_pcm16_saturation_witness :
    pcm16 2 = 32767 ∧ pcm16 (-(3 / 2 : ℚ)) = -32768 ∧ pcm16 (1 / 2 : ℚ) = truncQ ((1 / 2 : ℚ) * 32767) :=
  ⟨(C10_pcm16_saturation 2).2.2.1 (by norm_num),
   (C10_pcm16_saturation (-(3 / 2 : ℚ))).2.2.2.1 (by norm_num),
   (C10_pcm16_saturation (1 / 2 : ℚ)).2.2.2.2 (by norm_num) (by norm_num)⟩

/-- Transitions via `_set_state` never touch the pending-check flag. -/
theorem setState_pending_check (s : OrchState) (st : OState) :
    (setState s st).pending_check = s.pending_check := by
  unfold setState
  split <;> rfl

/-- Transitions via `_set_state` never touch the last-checked timestamp. -/
theorem setState_last_checked (s : OrchState) (st : OState) :
    (setState s st).last_checked_speech_time = s.last_checked_speech_time := by
  unfold setState
  split <;> rfl

/-- C1: on every exit path of the detect/respond sequence — normal completion,
early return, or an exception anywhere in it — the pending-check flag ends
false and the orchestrator is not left in DETECTING, THINKING or SPEAKING
(given the mute invariant: whenever muted, the state is MUTED). -/
theorem C1_pipeline_resolves (env : Env) (gate : ConfidenceGate) (force : Bool)
    (s0 : OrchState) (hinv : s0.muted = true → s0.state = OState.MUTED) :
    (checkAndRespond env gate force s0).1.pending_check = false ∧
    (checkAndRespond env gate force s0).1.state ≠ OState.DETECTING ∧
    (checkAndRespond env gate force s0).1.state ≠ OState.THINKING ∧
    (checkAndRespond env gate force s0).1.state ≠ OState.SPEAKING := by
  rcases env with ⟨rt, cl, ge, stp, syn, pl, sta, wr⟩
  cases hmu : s0.muted with
  | true =>
    have hst : s0.state = OState.MUTED := hinv hmu
    rcases rt with _ | rt
    · simp [checkAndRespond, carBody, setState, hmu, hst]
    by_cases htr : pyStrip rt = []
    · simp [checkAndRespond, carBody, setState, hmu, hst, htr]
    rcases cl with _ | cl
    · simp [checkAndRespond, carBody, setState, hmu, hst, htr]
    simp [checkAndRespond, carBody, setState, hmu, hst, htr]
  | false =>
    rcases rt with _ | rt
    · simp [checkAndRespond, carBody, setState, hmu]
    by_cases htr : pyStrip rt = []
    · simp [checkAndRespond, carBody, setState, hmu, htr]
    rcases cl with _ | cl
    · simp [checkAndRespond, carBody, setState, hmu, htr]
    cases force with
    | true =>
      rcases ge with _ | ge
      · simp [checkAndRespond, carBody, setState, hmu, htr]
      rcases stp with _ | stp <;> rcases syn with _ | syn <;>
        rcases sta with _ | sta <;> rcases wr with _ | wr <;>
        simp [checkAndRespond, carBody, setState, hmu, htr]
    | false =>
      by_cases hact : (gate.decide cl).action = Action.RESPOND
      · rcases ge with _ | ge
        · simp [checkAndRespond, carBody, setState, hmu, htr, hact]
        rcases stp with _ | stp <;> rcases syn with _ | syn <;>
          rcases sta with _ | sta <;> rcases wr with _ | wr <;>
          simp [checkAndRespond, carBody, setState, hmu, htr, hact]
      · simp [checkAndRespond, carBody, setState, hmu, htr, hact]

theorem C1_pipeline_resolves_witness :
    (checkAndRespond
      ⟨Except.ok ['h', 'i'], Except.ok ⟨true, 9/10, "q", "immediate"⟩, Except.error (),
       Except.ok (), Except.ok (), Except.ok (), Except.ok (), Except.ok ()⟩
      ⟨4/5⟩ false ⟨OState.LISTENING, false, true, 10, 0⟩).1.pending_check = false ∧
    (checkAndRespond
      ⟨Except.ok ['h', 'i'], Except.ok ⟨true, 9/10, "q", "immediate"⟩, Except.error (),
       Except.ok (), Except.ok (), Except.ok (), Except.ok (), Except.ok ()⟩
      ⟨4/5⟩ false ⟨OState.LISTENING, false, true, 10, 0⟩).1.state ≠ OState.DETECTING ∧
    (checkAndRespond
      ⟨Except.ok ['h', 'i'], Except.ok ⟨true, 9/10, "q", "immediate"⟩, Except.error (),
       Except.ok (), Except.ok (), Except.ok (), Except.ok (), Except.ok ()⟩
      ⟨4/5⟩ false ⟨OState.LISTENING, false, true, 10, 0⟩).1.state ≠ OState.THINKING ∧
    (checkAndRespond
      ⟨Except.ok ['h', 'i'], Except.ok ⟨true, 9/10, "q", "immediate"⟩, Except.error (),
       Except.ok (), Except.ok (), Except.ok (), Except.ok (), Except.ok ()⟩
      ⟨4/5⟩ false ⟨OState.LISTENING, false, true, 10, 0⟩).1.state ≠ OState.SPEAKING :=
  C1_pipeline_resolves
    ⟨Except.ok ['h', 'i'], Except.ok ⟨true, 9/10, "q", "immediate"⟩, Except.error (),
     Except.ok (), Except.ok (), Except.ok (), Except.ok (), Except.ok ()⟩
    ⟨4/5⟩ false ⟨OState.LISTENING, false, true, 10, 0⟩ (by simp)

/-- C2: the main loop triggers a check exactly when new speech has arrived
since the last check was initiated, the elapsed silence exceeds the threshold,
no check is pending, and the state is IDLE or LISTENING; a trigger advances
the last-checked timestamp to the last-speech timestamp (and sets the pending
flag), and any state with no new speech since the last check (last-speech ≤
last-checked) never triggers. -/
theorem C2_silence_trigger (interval now : ℚ) (s : OrchState)
    (hlc : 0 ≤ s.last_checked_speech_time) :
    ((runStep interval now s).2 = true ↔
      (s.last_checked_speech_time < s.last_speech_time ∧
       interval < now - s.last_speech_time ∧
       s.pending_check = false ∧
       (s.state = OState.IDLE ∨ s.state = OState.LISTENING))) ∧
    ((runStep interval now s).2 = true →
      (runStep interval now s).1.last_checked_speech_time = s.last_speech_time ∧
      (runStep interval now s).1.pending_check = true) ∧
    (∀ (s2 : OrchState) (now2 : ℚ), s2.last_speech_time ≤ s2.last_checked_speech_time →
      (runStep interval now2 s2).2 = false) := by
  refine ⟨?_, ?_, ?_⟩
  · constructor
    · intro htrig
      unfold runStep at htrig
      dsimp only at htrig
      by_cases hpos : 0 < s.last_speech_time
      · rw [if_pos hpos] at htrig
        split at htrig
        next h => exact h
        next h => simp at htrig
      · rw [if_neg hpos] at htrig
        split at htrig
        next h => exact absurd (lt_of_le_of_lt hlc h.1) hpos
        next h => simp at htrig
    · rintro ⟨h1, h2, h3, h4⟩
      have hpos : 0 < s.last_speech_time := lt_of_le_of_lt hlc h1
      unfold runStep
      dsimp only
      rw [if_pos hpos, dif_pos ⟨h1, h2, h3, h4⟩]
  · intro htrig
    unfold runStep at htrig ⊢
    dsimp only at htrig ⊢
    by_cases hpos : 0 < s.last_speech_time
    · rw [if_pos hpos] at htrig ⊢
      split at htrig
      next h =>
        rw [dif_pos h]
        exact ⟨setState_last_checked _ _, setState_pending_check _ _⟩
      next h => simp at htrig
    · rw [if_neg hpos] at htrig ⊢
      split at htrig
      next h =>
        rw [dif_pos h]
        exact ⟨setState_last_checked _ _, setState_pending_check _ _⟩
      next h => simp at htrig
  · intro s2 now2 hle
    unfold runStep
    dsimp only
    by_cases hpos : 0 < s2.last_speech_time
    · rw [if_pos hpos, dif_neg (by rintro ⟨h1, -⟩; exact absurd h1 (not_lt.mpr hle))]
    · rw [if_neg hpos, dif_neg (by rintro ⟨h1, -⟩; exact absurd h1 (not_lt.mpr hle))]

theorem C2_silence_trigger_witness :
    (runStep 2 10 ⟨OState.LISTENING, false, false, 5, 0⟩).2 = true :=
  ((C2_silence_trigger 2 10 ⟨OState.LISTENING, false, false, 5, 0⟩ (by norm_num)).1).mpr
    ⟨by norm_num, by norm_num, rfl, Or.inr rfl⟩

/-- C3: in a cycle whose gate decision is RESPOND (unmuted, classifier and
generator succeed, restart and ready-wait succeed), the recognizer bridge is
stopped before any synthesis request, the bridge restart and its ready-wait
both occur regardless of whether stop/synthesis succeed or raise, the
last-checked timestamp is advanced to the last-seen speech timestamp, and the
cycle ends in IDLE. -/
theorem C3_respond_cycle (env : Env) (gate : ConfidenceGate) (s0 : OrchState)
    (txt : List Char) (i : IntentResult) (r : String)
    (hmu : s0.muted = false)
    (hrt : env.recentText = Except.ok txt) (htxt : ¬ pyStrip txt = [])
    (hcl : env.classify = Except.ok i) (hdec : (gate.decide i).action = Action.RESPOND)
    (hge : env.generate = Except.ok r)
    (hsta : env.asrStart = Except.ok ()) (hwr : env.waitReady = Except.ok ()) :
    (∃ rest, (checkAndRespond env gate false s0).2 =
      Op.classify :: Op.generate :: Op.asrStop :: rest) ∧
    Op.asrStart ∈ (checkAndRespond env gate false s0).2 ∧
    Op.waitReady ∈ (checkAndRespond env gate false s0).2 ∧
    (checkAndRespond env gate false s0).1.last_checked_speech_time = s0.last_speech_time ∧
    (checkAndRespond env gate false s0).1.state = OState.IDLE := by
  rcases env with ⟨rt, cl, ge, stp, syn, pl, sta, wr⟩
  simp only at hrt hcl hge hsta hwr
  subst hrt
  subst hcl
  subst hge
  subst hsta
  subst hwr
  rcases stp with _ | stp
  · exact ⟨⟨[Op.asrStart, Op.waitReady],
      by simp [checkAndRespond, carBody, setState, hmu, htxt, hdec]⟩,
      by simp [checkAndRespond, carBody, setState, hmu, htxt, hdec],
      by simp [checkAndRespond, carBody, setState, hmu, htxt, hdec],
      by simp [checkAndRespond, carBody, setState, hmu, htxt, hdec],
      by simp [checkAndRespond, carBody, setState, hmu, htxt, hdec]⟩
  rcases syn with _ | syn
  · exact ⟨⟨[Op.synth, Op.asrStart, Op.waitReady],
      by simp [checkAndRespond, carBody, setState, hmu, htxt, hdec]⟩,
      by simp [checkAndRespond, carBody, setState, hmu, htxt, hdec],
      by simp [checkAndRespond, carBody, setState, hmu, htxt, hdec],
      by simp [checkAndRespond, carBody, setState, hmu, htxt, hdec],
      by simp [checkAndRespond, carBody, setState, hmu, htxt, hdec]⟩
  · exact ⟨⟨[Op.synth, Op.play, Op.asrStart, Op.waitReady],
      by simp [checkAndRespond, carBody, setState, hmu, htxt, hdec]⟩,
      by simp [checkAndRespond, carBody, setState, hmu, htxt, hdec],
      by simp [checkAndRespond, carBody, setState, hmu, htxt, hdec],
      by simp [checkAndRespond, carBody, setState, hmu, htxt, hdec],
      by simp [checkAndRespond, carBody, setState, hmu, htxt, hdec]⟩

theorem C3_respond_cycle_witness :
    (checkAndRespond
      ⟨Except.ok ['h', 'i'], Except.ok ⟨true, 9/10, "q", "immediate"⟩, Except.ok "r",
       Except.ok (), Except.error (), Except.ok (), Except.ok (), Except.ok ()⟩
      ⟨4/5⟩ false ⟨OState.LISTENING, false, true, 10, 0⟩).1.state = OState.IDLE :=
  (C3_respond_cycle
    ⟨Except.ok ['h', 'i'], Except.ok ⟨true, 9/10, "q", "immediate"⟩, Except.ok "r",
     Except.ok (), Except.error (), Except.ok (), Except.ok (), Except.ok ()⟩
    ⟨4/5⟩ ⟨OState.LISTENING, false, true, 10, 0⟩
    ['h', 'i'] ⟨true, 9/10, "q", "immediate"⟩ "r"
    rfl rfl (by decide) rfl
    (by simp [ConfidenceGate.decide]; norm_num)
    rfl rfl rfl).2.2.2.2

/-- C4 counterexample: while muted (state MUTED) with recent transcript text
available, the force-respond control is not a no-op: the scheduled sequence
invokes the external intent classifier (orchestrator.py line 288 runs before
the mute test on line 307). -/
theorem C4_force_respond_muted_cex :
    Op.classify ∈ (forceRespond
      ⟨Except.ok ['h', 'i'], Except.ok ⟨true, 9/10, "q", "immediate"⟩, Except.ok "r",
       Except.ok (), Except.ok (), Except.ok (), Except.ok (), Except.ok ()⟩
      ⟨4/5⟩ ⟨OState.MUTED, true, false, 5, 0⟩).2 := by
  have hne : ¬ (pyStrip ['h', 'i'] = []) := by decide
  simp [forceRespond, checkAndRespond, carBody, setState, hne]

/-- C4 amended: while muted, force-respond never changes the state (it stays
MUTED), and never invokes the response generator, the synthesizer, playback,
or the recognizer stop — but it may invoke the intent classifier (whose
result is then discarded at the mute test). -/
theorem C4_force_respond_muted (env : Env) (gate : ConfidenceGate) (s : OrchState)
    (hmu : s.muted = true) (hst : s.state = OState.MUTED) :
    (forceRespond env gate s).1.state = OState.MUTED ∧
    Op.generate ∉ (forceRespond env gate s).2 ∧
    Op.synth ∉ (forceRespond env gate s).2 ∧
    Op.play ∉ (forceRespond env gate s).2 ∧
    Op.asrStop ∉ (forceRespond env gate s).2 := by
  rcases env with ⟨rt, cl, ge, stp, syn, pl, sta, wr⟩
  have hguard : ¬ (s.state = OState.SPEAKING ∨ s.state = OState.THINKING) := by
    rw [hst]
    simp
  unfold forceRespond
  rw [if_neg hguard]
  rcases rt with _ | rt
  · simp [checkAndRespond, carBody, setState, hmu, hst]
  by_cases htr : pyStrip rt = []
  · simp [checkAndRespond, carBody, setState, hmu, hst, htr]
  rcases cl with _ | cl
  · simp [checkAndRespond, carBody, setState, hmu, hst, htr]
  · simp [checkAndRespond, carBody, setState, hmu, hst, htr]

theorem C4_force_respond_muted_witness :
    (forceRespond
      ⟨Except.ok ['h', 'i'], Except.ok ⟨true, 9/10, "q", "immediate"⟩, Except.ok "r",
       Except.ok (), Except.ok (), Except.ok (), Except.ok (), Except.ok ()⟩
      ⟨4/5⟩ ⟨OState.MUTED, true, false, 5, 0⟩).1.state = OState.MUTED :=
  (C4_force_respond_muted
    ⟨Except.ok ['h', 'i'], Except.ok ⟨true, 9/10, "q", "immediate"⟩, Except.ok "r",
     Except.ok (), Except.ok (), Except.ok (), Except.ok (), Except.ok ()⟩
    ⟨4/5⟩ ⟨OState.MUTED, true, false, 5, 0⟩ rfl rfl).1

end ProxyCall
